import Mathlib

/-!
Shallow embedding of `src/server/services/autoflip-mediapipe.py`:
the AutoFlip-inspired crop planner (`calculate_autoflip_crop`), the
temporal smoother (`smooth_crop_transitions`) and the CLI driver
(`main` / `process_video_autoflip`).

Modelling conventions:
* Python ints are `ℤ`; Python floats are modelled as exact rationals `ℚ`.
* Python `int(x)` applied to a float truncates toward zero: `pyTrunc`.
* Python `//` on ints is floor division: `Int.fdiv`.
* The Python dicts holding the crop data become Lean structures carrying
  the fields the program later reads; the `method` tag is the literal
  Python string.
-/

/-- Python `int(x)` on a real value: truncation toward zero. -/
def pyTrunc (q : ℚ) : ℤ := if 0 ≤ q then ⌊q⌋ else -⌊-q⌋

/-- The crop rectangle dict produced by `calculate_autoflip_crop`
(`crop_info`): pixel offsets/extents, a confidence and the method tag. -/
structure CropRect where
  x : ℤ
  y : ℤ
  width : ℤ
  height : ℤ
  confidence : ℚ
  method : String
deriving Repr, DecidableEq

/-- The part of the `salient_regions` dict that `calculate_autoflip_crop`
reads: the optional normalized overall bounding box `[x, y, w, h]`
(fields `overall_bbox.normalized`) and the mean confidence. -/
structure FrameSalience where
  overall_bbox : Option (ℚ × ℚ × ℚ × ℚ)
  confidence : ℚ
deriving Repr, DecidableEq

/-- Lines 197–207 of `calculate_autoflip_crop`: parse the target aspect
ratio label; an unrecognized label falls back to 9/16 (portrait). -/
def parse_target_ratio ( target_aspect_ratio : String) : ℚ :=
  if target_aspect_ratio = "9:16" then 9 / 16
  else if target_aspect_ratio = "16:9" then 16 / 9
  else if target_aspect_ratio = "1:1" then 1
  else if target_aspect_ratio = "4:3" then 4 / 3
  else 9 / 16

/-- `AutoFlipMediaPipe.calculate_autoflip_crop` (lines 191–283). -/
def calculate_autoflip_crop (frame_width frame_height : ℤ)
    (salient_regions : FrameSalience) ( target_aspect_ratio : String) : CropRect :=
  let target_ratio := parse_target_ratio target_aspect_ratio
  let current_ratio : ℚ := (frame_width : ℚ) / (frame_height : ℚ)
  match salient_regions.overall_bbox with
  | some bbox =>
    let center_x := bbox.1 + bbox.2.2.1 / 2
    let center_y := bbox.2.1 + bbox.2.2.2 / 2
    if target_ratio < current_ratio then
      let crop_height := frame_height
      let crop_width := pyTrunc ((crop_height : ℚ) * target_ratio)
      let crop_x := pyTrunc (center_x * (frame_width : ℚ) - (crop_width : ℚ) / 2)
      let crop_x := max 0 (min crop_x (frame_width - crop_width))
      { x := crop_x, y := 0, width := crop_width, height := crop_height,
        confidence := salient_regions.confidence, method := "autoflip_salient" }
    else
      let crop_width := frame_width
      let crop_height := pyTrunc ((crop_width : ℚ) / target_ratio)
      let crop_y := pyTrunc (center_y * (frame_height : ℚ) - (crop_height : ℚ) / 2)
      let crop_y := max 0 (min crop_y (frame_height - crop_height))
      { x := 0, y := crop_y, width := crop_width, height := crop_height,
        confidence := salient_regions.confidence, method := "autoflip_salient" }
  | none =>
    if target_ratio < current_ratio then
      let crop_height := frame_height
      let crop_width := pyTrunc ((crop_height : ℚ) * target_ratio)
      let crop_x := Int.fdiv (frame_width - crop_width) 2
      { x := crop_x, y := 0, width := crop_width, height := crop_height,
        confidence := 1 / 10, method := "center_crop_fallback" }
    else
      let crop_width := frame_width
      let crop_height := pyTrunc ((crop_width : ℚ) / target_ratio)
      let crop_y := Int.fdiv (frame_height - crop_height) 2
      { x := 0, y := crop_y, width := crop_width, height := crop_height,
        confidence := 1 / 10, method := "center_crop_fallback" }

/-- One entry of a `frame_analyses` element as consumed by
`smooth_crop_transitions`: the sampled frame index, its timestamp and its
planned crop (`crop_info`). -/
structure FrameAnalysis where
  frame_idx : ℤ
  timestamp : ℚ
  crop_info : CropRect
deriving Repr, DecidableEq

/-- One entry of the `smoothed_crops` list produced by
`smooth_crop_transitions`. -/
structure SmoothedCrop where
  frame_idx : ℤ
  timestamp : ℚ
  x : ℤ
  y : ℤ
  width : ℤ
  height : ℤ
  confidence : ℚ
  method : String
deriving Repr, DecidableEq

/-- The inner loop of `smooth_crop_transitions` (lines 370–397): the
interpolated crops emitted for one consecutive pair of sampled analyses.
`range(frame_diff)` on a non-positive `frame_diff` is empty, hence
`Int.toNat`; the `if frame_diff > 0 else 0` guard is the code's own
division-by-zero guard. -/
def interpolate_pair (current_analysis next_analysis : FrameAnalysis)
    (fps : ℚ) : List SmoothedCrop :=
  let current_frame := current_analysis.frame_idx
  let next_frame := next_analysis.frame_idx
  let current_crop := current_analysis.crop_info
  let next_crop := next_analysis.crop_info
  let frame_diff := next_frame - current_frame
  (List.range frame_diff.toNat).map fun (frame_offset : ℕ) =>
    let interpolation_factor : ℚ :=
      if 0 < frame_diff then (frame_offset : ℚ) / (frame_diff : ℚ) else 0
    { frame_idx := current_frame + (frame_offset : ℤ),
      timestamp := ((current_frame : ℚ) + (frame_offset : ℚ)) / fps,
      x := pyTrunc ((current_crop.x : ℚ)
        + ((next_crop.x : ℚ) - (current_crop.x : ℚ)) * interpolation_factor),
      y := pyTrunc ((current_crop.y : ℚ)
        + ((next_crop.y : ℚ) - (current_crop.y : ℚ)) * interpolation_factor),
      width := pyTrunc ((current_crop.width : ℚ)
        + ((next_crop.width : ℚ) - (current_crop.width : ℚ)) * interpolation_factor),
      height := pyTrunc ((current_crop.height : ℚ)
        + ((next_crop.height : ℚ) - (current_crop.height : ℚ)) * interpolation_factor),
      confidence := current_crop.confidence
        + (next_crop.confidence - current_crop.confidence) * interpolation_factor,
      method := "interpolated" }

/-- Lines 399–412 of `smooth_crop_transitions`: the final sampled frame's
own crop, appended unchanged with its original method label. -/
def last_smoothed (last_analysis : FrameAnalysis) : SmoothedCrop :=
  { frame_idx := last_analysis.frame_idx,
    timestamp := last_analysis.timestamp,
    x := last_analysis.crop_info.x,
    y := last_analysis.crop_info.y,
    width := last_analysis.crop_info.width,
    height := last_analysis.crop_info.height,
    confidence := last_analysis.crop_info.confidence,
    method := last_analysis.crop_info.method }

/-- `AutoFlipMediaPipe.smooth_crop_transitions` (lines 359–414).
`total_frames` and `fps` are the arguments the Python method receives;
the pair loop `for i in range(len(frame_analyses) - 1)` is the zip of the
list with its tail. -/
def smooth_crop_transitions (frame_analyses : List FrameAnalysis)
    (total_frames : ℤ) (fps : ℚ) : List SmoothedCrop :=
  match frame_analyses with
  | [] => []
  | a :: rest =>
    let pairs := (a :: rest).zip rest
    let interpolated := (pairs.map fun p => interpolate_pair p.1 p.2 fps).flatten
    interpolated ++ [last_smoothed ((a :: rest).getLast (List.cons_ne_nil a rest))]

/-- The environment `main` (lines 416–454) interacts with: whether
`os.path.exists(args.input_video)` holds and whether
`cv2.VideoCapture(input_path).isOpened()` holds. -/
structure CliWorld where
  input_exists : Bool
  video_opens : Bool
deriving Repr, DecidableEq

/-- The observable outcome of one run of `main`: the process exit code,
the messages printed to stdout and to stderr, and whether the output
JSON file was written. -/
structure CliOutcome where
  exit_code : ℕ
  stdout_msgs : List String
  stderr_msgs : List String
  json_written : Bool
deriving Repr, DecidableEq

/-- `main` (lines 416–454) together with the open/error check of
`process_video_autoflip` (lines 291–293): a missing input file prints
`Error: Input video file not found: …` via `print` (stdout) and exits
with code 1 before anything is written; an unopenable video makes
`process_video_autoflip` return `{'error': 'Could not open video file'}`,
which `main` prints via `print` (stdout) and exits with code 1, again
before `open(args.output_json, 'w')` runs; otherwise the JSON is written
and the process falls off the end of `main` with exit code 0.  Dynamic
f-string arguments and the per-frame progress lines are elided from the
message lists; nothing in the program ever writes to stderr. -/
def main_model (w : CliWorld) : CliOutcome :=
  if w.input_exists = false then
    { exit_code := 1,
      stdout_msgs := ["Error: Input video file not found"],
      stderr_msgs := [],
      json_written := false }
  else if w.video_opens = false then
    { exit_code := 1,
      stdout_msgs := ["Starting AutoFlip-inspired video analysis with MediaPipe...",
                      "Error: Could not open video file"],
      stderr_msgs := [],
      json_written := false }
  else
    { exit_code := 0,
      stdout_msgs := ["Starting AutoFlip-inspired video analysis with MediaPipe...",
                      "AutoFlip analysis completed successfully!"],
      stderr_msgs := [],
      json_written := true }

/-- The frame-bounds invariant of §3 of the design: the rectangle
`(x, y, w, h)` stays inside a `frame_width × frame_height` frame. -/
def crop_within (frame_width frame_height x y w h : ℤ) : Prop :=
  0 ≤ x ∧ 0 ≤ y ∧ x + w ≤ frame_width ∧ y + h ≤ frame_height

/-- `crop_within` for a planner `CropRect`. -/
def cropRect_within (frame_width frame_height : ℤ) (c : CropRect) : Prop :=
  crop_within frame_width frame_height c.x c.y c.width c.height

/-- `crop_within` for a smoother output entry. -/
def smoothed_within (frame_width frame_height : ℤ) (c : SmoothedCrop) : Prop :=
  crop_within frame_width frame_height c.x c.y c.width c.height

/-- The frame-bounds invariant together with nonnegative extents. -/
def cropRect_bounded (frame_width frame_height : ℤ) (c : CropRect) : Prop :=
  cropRect_within frame_width frame_height c ∧ 0 ≤ c.width ∧ 0 ≤ c.height

section PyTruncLemmas

theorem pyTrunc_nonneg {q : ℚ} (h : 0 ≤ q) : 0 ≤ pyTrunc q := by
  unfold pyTrunc
  rw [if_pos h]
  exact Int.floor_nonneg.mpr h

theorem pyTrunc_le {q : ℚ} (h : 0 ≤ q) : (pyTrunc q : ℚ) ≤ q := by
  unfold pyTrunc
  rw [if_pos h]
  exact Int.floor_le q

theorem lt_pyTrunc_add_one {q : ℚ} (h : 0 ≤ q) : q < (pyTrunc q : ℚ) + 1 := by
  unfold pyTrunc
  rw [if_pos h]
  exact_mod_cast Int.lt_floor_add_one q

theorem one_le_pyTrunc {q : ℚ} (h : 1 ≤ q) : 1 ≤ pyTrunc q := by
  unfold pyTrunc
  rw [if_pos (le_trans zero_le_one h)]
  exact Int.le_floor.mpr (by exact_mod_cast h)

theorem pyTrunc_intCast (n : ℤ) : pyTrunc (n : ℚ) = n := by
  unfold pyTrunc
  split
  · exact Int.floor_intCast n
  · rw [← Int.cast_neg, Int.floor_intCast, neg_neg]

end PyTruncLemmas

section RatioLemmas

theorem parse_target_ratio_bounds (s : String) :
    9 / 16 ≤ parse_target_ratio s ∧ parse_target_ratio s ≤ 16 / 9 := by
  unfold parse_target_ratio
  split_ifs <;> norm_num

theorem parse_target_ratio_pos (s : String) : 0 < parse_target_ratio s :=
  lt_of_lt_of_le (by norm_num) (parse_target_ratio_bounds s).1

end RatioLemmas

section PlannerInvariant

theorem fdiv_two_eq_ediv (a : ℤ) : Int.fdiv a 2 = a / 2 :=
  Int.fdiv_eq_ediv a (by norm_num)

/-- Every crop the planner returns stays inside the frame and has
nonnegative width and height. -/
theorem calculate_autoflip_crop_bounded (fw fh : ℤ) (sal : FrameSalience)
    (label : String) (hfw : 0 < fw) (hfh : 0 < fh) :
    cropRect_bounded fw fh (calculate_autoflip_crop fw fh sal label) := by
  have hr : 0 < parse_target_ratio label := parse_target_ratio_pos label
  have hfw' : (0 : ℚ) < (fw : ℚ) := by exact_mod_cast hfw
  have hfh' : (0 : ℚ) < (fh : ℚ) := by exact_mod_cast hfh
  have hqw : (0 : ℚ) ≤ (fh : ℚ) * parse_target_ratio label := by positivity
  have hqh : (0 : ℚ) ≤ (fw : ℚ) / parse_target_ratio label := by positivity
  have hw0 : 0 ≤ pyTrunc ((fh : ℚ) * parse_target_ratio label) := pyTrunc_nonneg hqw
  have hh0 : 0 ≤ pyTrunc ((fw : ℚ) / parse_target_ratio label) := pyTrunc_nonneg hqh
  unfold calculate_autoflip_crop cropRect_bounded cropRect_within crop_within
  rcases sal with ⟨bb, conf⟩
  rcases bb with _ | ⟨bx, byy, bw, bh⟩ <;> dsimp only <;> split_ifs with hcr <;> dsimp only
  · -- fallback, crop width
    have h1 : parse_target_ratio label * (fh : ℚ) < (fw : ℚ) := (lt_div_iff hfh').mp hcr
    have h2 : (pyTrunc ((fh : ℚ) * parse_target_ratio label) : ℚ)
        ≤ (fh : ℚ) * parse_target_ratio label := pyTrunc_le hqw
    have hwlt : pyTrunc ((fh : ℚ) * parse_target_ratio label) < fw := by
      have h3 : (pyTrunc ((fh : ℚ) * parse_target_ratio label) : ℚ) < (fw : ℚ) := by linarith
      exact_mod_cast h3
    rw [fdiv_two_eq_ediv]
    omega
  · -- fallback, crop height
    have h1 : (fw : ℚ) ≤ parse_target_ratio label * (fh : ℚ) :=
      (div_le_iff hfh').mp (le_of_not_lt hcr)
    have h2 : (pyTrunc ((fw : ℚ) / parse_target_ratio label) : ℚ)
        ≤ (fw : ℚ) / parse_target_ratio label := pyTrunc_le hqh
    have h3 : (fw : ℚ) / parse_target_ratio label ≤ (fh : ℚ) :=
      (div_le_iff hr).mpr (by linarith)
    have hhle : pyTrunc ((fw : ℚ) / parse_target_ratio label) ≤ fh := by
      exact_mod_cast le_trans h2 h3
    rw [fdiv_two_eq_ediv]
    omega
  · -- salient, crop width
    have h1 : parse_target_ratio label * (fh : ℚ) < (fw : ℚ) := (lt_div_iff hfh').mp hcr
    have h2 : (pyTrunc ((fh : ℚ) * parse_target_ratio label) : ℚ)
        ≤ (fh : ℚ) * parse_target_ratio label := pyTrunc_le hqw
    have hwlt : pyTrunc ((fh : ℚ) * parse_target_ratio label) < fw := by
      have h3 : (pyTrunc ((fh : ℚ) * parse_target_ratio label) : ℚ) < (fw : ℚ) := by linarith
      exact_mod_cast h3
    omega
  · -- salient, crop height
    have h1 : (fw : ℚ) ≤ parse_target_ratio label * (fh : ℚ) :=
      (div_le_iff hfh').mp (le_of_not_lt hcr)
    have h2 : (pyTrunc ((fw : ℚ) / parse_target_ratio label) : ℚ)
        ≤ (fw : ℚ) / parse_target_ratio label := pyTrunc_le hqh
    have h3 : (fw : ℚ) / parse_target_ratio label ≤ (fh : ℚ) :=
      (div_le_iff hr).mpr (by linarith)
    have hhle : pyTrunc ((fw : ℚ) / parse_target_ratio label) ≤ fh := by
      exact_mod_cast le_trans h2 h3
    omega

/-- Every crop the planner returns stays inside the frame. -/
theorem calculate_autoflip_crop_within (fw fh : ℤ) (sal : FrameSalience)
    (label : String) (hfw : 0 < fw) (hfh : 0 < fh) :
    cropRect_within fw fh (calculate_autoflip_crop fw fh sal label) :=
  (calculate_autoflip_crop_bounded fw fh sal label hfw hfh).1

end PlannerInvariant

section SmootherStructure

/-- Linear interpolation between two nonnegative values stays
nonnegative for an interpolation factor in `[0, 1]`. -/
theorem interp_nonneg {a b t : ℚ} (ha : 0 ≤ a) (hb : 0 ≤ b)
    (ht0 : 0 ≤ t) (ht1 : t ≤ 1) : 0 ≤ a + (b - a) * t := by nlinarith

/-- Linear interpolation between two values below a bound stays below the
bound for an interpolation factor in `[0, 1]`. -/
theorem interp_le {a b s t : ℚ} (ha : a ≤ s) (hb : b ≤ s)
    (ht0 : 0 ≤ t) (ht1 : t ≤ 1) : a + (b - a) * t ≤ s := by nlinarith

/-- Unfolding: the smoother on a list headed by two analyses is the
interpolated run for the first pair followed by the smoother on the
tail. -/
theorem smooth_cons_cons (a b : FrameAnalysis) (l : List FrameAnalysis)
    (tf : ℤ) (fps : ℚ) :
    smooth_crop_transitions (a :: b :: l) tf fps =
      interpolate_pair a b fps ++ smooth_crop_transitions (b :: l) tf fps := by
  unfold smooth_crop_transitions
  simp [List.zip_cons_cons, List.getLast_cons]

/-- The smoother on a single analysis returns just that analysis's crop. -/
theorem smooth_single (a : FrameAnalysis) (tf : ℤ) (fps : ℚ) :
    smooth_crop_transitions [a] tf fps = [last_smoothed a] := by
  unfold smooth_crop_transitions
  simp

/-- Every element of the smoother's output comes either from the
interpolation of a consecutive pair of input analyses or is the final
appended crop. -/
theorem mem_smooth_cases {analyses : List FrameAnalysis} {tf : ℤ} {fps : ℚ}
    {c : SmoothedCrop} (hc : c ∈ smooth_crop_transitions analyses tf fps) :
    (∃ p ∈ analyses, ∃ q ∈ analyses, c ∈ interpolate_pair p q fps) ∨
    ∃ a ∈ analyses, c = last_smoothed a := by
  match analyses with
  | [] => simp [smooth_crop_transitions] at hc
  | a :: rest =>
    unfold smooth_crop_transitions at hc
    simp only [List.mem_append, List.mem_flatten, List.mem_map,
      List.mem_singleton] at hc
    rcases hc with ⟨L, ⟨pr, hpr, rfl⟩, hcL⟩ | rfl
    · left
      obtain ⟨h1, h2⟩ := List.of_mem_zip hpr
      exact ⟨pr.1, h1, pr.2, List.mem_cons_of_mem a h2, hcL⟩
    · right
      exact ⟨_, List.getLast_mem _, rfl⟩

end SmootherStructure

section SmootherInvariant

/-- Truncated linear interpolation of the two coordinates of a
nonnegative pair keeps the first coordinate nonnegative and the sum below
any bound both endpoint sums respect. -/
theorem pyTrunc_interp_bounds (a1 a2 b1 b2 s t : ℚ)
    (ha1 : 0 ≤ a1) (ha2 : 0 ≤ a2) (hb1 : 0 ≤ b1) (hb2 : 0 ≤ b2)
    (has : a1 + a2 ≤ s) (hbs : b1 + b2 ≤ s) (ht0 : 0 ≤ t) (ht1 : t ≤ 1) :
    0 ≤ pyTrunc (a1 + (b1 - a1) * t) ∧
    (pyTrunc (a1 + (b1 - a1) * t) : ℚ) + (pyTrunc (a2 + (b2 - a2) * t) : ℚ) ≤ s := by
  have h1 : 0 ≤ a1 + (b1 - a1) * t := interp_nonneg ha1 hb1 ht0 ht1
  have h2 : 0 ≤ a2 + (b2 - a2) * t := interp_nonneg ha2 hb2 ht0 ht1
  refine ⟨pyTrunc_nonneg h1, ?_⟩
  have h3 : (a1 + a2) + ((b1 + b2) - (a1 + a2)) * t ≤ s :=
    interp_le has hbs ht0 ht1
  calc (pyTrunc (a1 + (b1 - a1) * t) : ℚ) + (pyTrunc (a2 + (b2 - a2) * t) : ℚ)
      ≤ (a1 + (b1 - a1) * t) + (a2 + (b2 - a2) * t) :=
        add_le_add (pyTrunc_le h1) (pyTrunc_le h2)
    _ = (a1 + a2) + ((b1 + b2) - (a1 + a2)) * t := by ring
    _ ≤ s := h3

/-- If both endpoint crops of a consecutive pair are inside the frame
with nonnegative extents, every interpolated crop of the pair is inside
the frame. -/
theorem interpolate_pair_within (fw fh : ℤ) (p q : FrameAnalysis) (fps : ℚ)
    (hp : cropRect_bounded fw fh p.crop_info)
    (hq : cropRect_bounded fw fh q.crop_info) :
    ∀ c ∈ interpolate_pair p q fps, smoothed_within fw fh c := by
  intro c hc
  unfold interpolate_pair at hc
  simp only [List.mem_map, List.mem_range] at hc
  obtain ⟨off, hoff, rfl⟩ := hc
  obtain ⟨⟨hpx, hpy, hpxw, hpyh⟩, hpw, hph⟩ := hp
  obtain ⟨⟨hqx, hqy, hqxw, hqyh⟩, hqw, hqh⟩ := hq
  set d : ℤ := q.frame_idx - p.frame_idx with hd
  set t : ℚ := if 0 < d then ((off : ℕ) : ℚ) / ((d : ℤ) : ℚ) else 0 with ht
  have ht0 : 0 ≤ t := by
    rw [ht]
    split_ifs with hdpos
    · have : (0 : ℚ) < ((d : ℤ) : ℚ) := by exact_mod_cast hdpos
      positivity
    · exact le_rfl
  have ht1 : t ≤ 1 := by
    rw [ht]
    split_ifs with hdpos
    · rw [div_le_one (by exact_mod_cast hdpos)]
      have hoffd : (off : ℤ) ≤ d := by omega
      exact_mod_cast hoffd
    · norm_num
  unfold smoothed_within crop_within
  dsimp only
  have hx := pyTrunc_interp_bounds ((p.crop_info.x : ℚ)) ((p.crop_info.width : ℚ))
    ((q.crop_info.x : ℚ)) ((q.crop_info.width : ℚ)) ((fw : ℚ)) t
    (by exact_mod_cast hpx) (by exact_mod_cast hpw)
    (by exact_mod_cast hqx) (by exact_mod_cast hqw)
    (by exact_mod_cast hpxw) (by exact_mod_cast hqxw) ht0 ht1
  have hy := pyTrunc_interp_bounds ((p.crop_info.y : ℚ)) ((p.crop_info.height : ℚ))
    ((q.crop_info.y : ℚ)) ((q.crop_info.height : ℚ)) ((fh : ℚ)) t
    (by exact_mod_cast hpy) (by exact_mod_cast hph)
    (by exact_mod_cast hqy) (by exact_mod_cast hqh)
    (by exact_mod_cast hpyh) (by exact_mod_cast hqyh) ht0 ht1
  refine ⟨hx.1, hy.1, ?_, ?_⟩
  · exact_mod_cast hx.2
  · exact_mod_cast hy.2

/-- The crop appended for the final sampled frame inherits its bounds. -/
theorem last_smoothed_within (fw fh : ℤ) (a : FrameAnalysis)
    (ha : cropRect_bounded fw fh a.crop_info) :
    smoothed_within fw fh (last_smoothed a) := by
  obtain ⟨⟨h1, h2, h3, h4⟩, _, _⟩ := ha
  exact ⟨h1, h2, h3, h4⟩

/-- If every input crop is inside the frame with nonnegative extents,
every crop the smoother outputs is inside the frame. -/
theorem smooth_crop_transitions_within (fw fh tf : ℤ) (fps : ℚ)
    (analyses : List FrameAnalysis)
    (hin : ∀ a ∈ analyses, cropRect_bounded fw fh a.crop_info) :
    ∀ c ∈ smooth_crop_transitions analyses tf fps, smoothed_within fw fh c := by
  intro c hc
  rcases mem_smooth_cases hc with ⟨p, hpmem, q, hqmem, hcint⟩ | ⟨a, hamem, rfl⟩
  · exact interpolate_pair_within fw fh p q fps (hin p hpmem) (hin q hqmem) c hcint
  · exact last_smoothed_within fw fh a (hin a hamem)

end SmootherInvariant

section SmootherLength

theorem interpolate_pair_length (p q : FrameAnalysis) (fps : ℚ) :
    (interpolate_pair p q fps).length = (q.frame_idx - p.frame_idx).toNat := by
  unfold interpolate_pair
  simp

/-- With non-decreasing frame indices, the head's index is at most the
last element's index. -/
theorem chain_head_le_getLast : ∀ (l : List FrameAnalysis) (a : FrameAnalysis),
    List.Chain' (fun u v => u.frame_idx ≤ v.frame_idx) (a :: l) →
    a.frame_idx ≤ ((a :: l).getLast (List.cons_ne_nil a l)).frame_idx
  | [], _, _ => le_rfl
  | b :: l, a, h => by
    obtain ⟨hab, htail⟩ := List.chain'_cons.mp h
    rw [List.getLast_cons (List.cons_ne_nil b l)]
    exact le_trans hab (chain_head_le_getLast l b htail)

/-- With non-decreasing frame indices, the smoother's output length is
`lastFrameIndex - firstFrameIndex + 1`. -/
theorem smooth_length_chain : ∀ (l : List FrameAnalysis) (a : FrameAnalysis)
    (tf : ℤ) (fps : ℚ),
    List.Chain' (fun u v => u.frame_idx ≤ v.frame_idx) (a :: l) →
    ((smooth_crop_transitions (a :: l) tf fps).length : ℤ) =
      ((a :: l).getLast (List.cons_ne_nil a l)).frame_idx - a.frame_idx + 1
  | [], a, tf, fps, _ => by
    rw [smooth_single]
    simp
  | b :: l, a, tf, fps, h => by
    obtain ⟨hab, htail⟩ := List.chain'_cons.mp h
    have hble := chain_head_le_getLast l b htail
    have ih := smooth_length_chain l b tf fps htail
    rw [smooth_cons_cons, List.length_append, interpolate_pair_length,
      List.getLast_cons (List.cons_ne_nil b l)]
    push_cast
    omega

/-- With non-decreasing frame indices, no smoothed crop carries a frame
index beyond the last sampled frame's index. -/
theorem smooth_frame_idx_le : ∀ (l : List FrameAnalysis) (a : FrameAnalysis)
    (tf : ℤ) (fps : ℚ),
    List.Chain' (fun u v => u.frame_idx ≤ v.frame_idx) (a :: l) →
    ∀ c ∈ smooth_crop_transitions (a :: l) tf fps,
      c.frame_idx ≤ ((a :: l).getLast (List.cons_ne_nil a l)).frame_idx
  | [], a, tf, fps, _ => by
    intro c hc
    rw [smooth_single] at hc
    simp only [List.mem_singleton] at hc
    subst hc
    exact le_rfl
  | b :: l, a, tf, fps, h => by
    obtain ⟨hab, htail⟩ := List.chain'_cons.mp h
    intro c hc
    rw [smooth_cons_cons] at hc
    rw [List.getLast_cons (List.cons_ne_nil b l)]
    rcases List.mem_append.mp hc with hc1 | hc2
    · unfold interpolate_pair at hc1
      simp only [List.mem_map, List.mem_range] at hc1
      obtain ⟨off, hoff, rfl⟩ := hc1
      dsimp only
      have hble := chain_head_le_getLast l b htail
      omega
    · exact smooth_frame_idx_le l b tf fps htail c hc2

end SmootherLength

section RatioBound

/-- Aspect-ratio error of the crop-width branch: with frame height at
least 2 and a target ratio from the enumerated range, truncating
`frame_height * target_ratio` keeps `width/height` within `2/min(w,h)`
of the target ratio. -/
theorem trunc_width_ratio_bound (fh : ℤ) (r : ℚ) (hfh : 2 ≤ fh)
    (hr1 : 9 / 16 ≤ r) (hr2 : r ≤ 16 / 9) :
    |((pyTrunc ((fh : ℚ) * r) : ℚ) / (fh : ℚ)) - r|
      ≤ 2 / min ((pyTrunc ((fh : ℚ) * r) : ℚ)) ((fh : ℚ)) := by
  have hfh' : (2 : ℚ) ≤ (fh : ℚ) := by exact_mod_cast hfh
  have hfhpos : (0 : ℚ) < (fh : ℚ) := by linarith
  have hq1 : (1 : ℚ) ≤ (fh : ℚ) * r := by nlinarith
  have hq0 : (0 : ℚ) ≤ (fh : ℚ) * r := by linarith
  have hw1 : 1 ≤ pyTrunc ((fh : ℚ) * r) := one_le_pyTrunc hq1
  have hw1' : (1 : ℚ) ≤ (pyTrunc ((fh : ℚ) * r) : ℚ) := by exact_mod_cast hw1
  have hwle : (pyTrunc ((fh : ℚ) * r) : ℚ) ≤ (fh : ℚ) * r := pyTrunc_le hq0
  have hwlt : (fh : ℚ) * r < (pyTrunc ((fh : ℚ) * r) : ℚ) + 1 := lt_pyTrunc_add_one hq0
  have hminpos : (0 : ℚ) < min ((pyTrunc ((fh : ℚ) * r) : ℚ)) ((fh : ℚ)) :=
    lt_min (by linarith) hfhpos
  have hdiv : (pyTrunc ((fh : ℚ) * r) : ℚ) / (fh : ℚ) ≤ r :=
    (div_le_iff hfhpos).mpr (by linarith [mul_comm r ((fh : ℚ))])
  rw [abs_sub_comm, abs_of_nonneg (by linarith)]
  have h1 : r - (pyTrunc ((fh : ℚ) * r) : ℚ) / (fh : ℚ) ≤ 1 / (fh : ℚ) := by
    have hgoal : r - (pyTrunc ((fh : ℚ) * r) : ℚ) / (fh : ℚ)
        = (r * (fh : ℚ) - (pyTrunc ((fh : ℚ) * r) : ℚ)) / (fh : ℚ) := by
      field_simp
    rw [hgoal, div_le_div_right hfhpos]
    nlinarith
  have h2 : 1 / (fh : ℚ) ≤ 2 / min ((pyTrunc ((fh : ℚ) * r) : ℚ)) ((fh : ℚ)) := by
    have ha : 1 / (fh : ℚ) ≤ 1 / min ((pyTrunc ((fh : ℚ) * r) : ℚ)) ((fh : ℚ)) :=
      one_div_le_one_div_of_le hminpos (min_le_right _ _)
    have hb : 1 / min ((pyTrunc ((fh : ℚ) * r) : ℚ)) ((fh : ℚ))
        ≤ 2 / min ((pyTrunc ((fh : ℚ) * r) : ℚ)) ((fh : ℚ)) :=
      (div_le_div_right hminpos).mpr (by norm_num)
    linarith
  linarith

end RatioBound

/-- Aspect-ratio error of the crop-height branch: with frame width at
least 2 and a target ratio from the enumerated range, truncating
`frame_width / target_ratio` keeps `width/height` within `2/min(w,h)`
of the target ratio. -/
theorem trunc_height_ratio_bound (fw : ℤ) (r : ℚ) (hfw : 2 ≤ fw)
    (hr1 : 9 / 16 ≤ r) (hr2 : r ≤ 16 / 9) :
    |((fw : ℚ) / (pyTrunc ((fw : ℚ) / r) : ℚ)) - r|
      ≤ 2 / min ((fw : ℚ)) ((pyTrunc ((fw : ℚ) / r) : ℚ)) := by
  have hfw' : (2 : ℚ) ≤ (fw : ℚ) := by exact_mod_cast hfw
  have hfwpos : (0 : ℚ) < (fw : ℚ) := by linarith
  have hrpos : (0 : ℚ) < r := by linarith
  have hq1 : (1 : ℚ) ≤ (fw : ℚ) / r := by
    rw [le_div_iff hrpos]
    linarith
  have hq0 : (0 : ℚ) ≤ (fw : ℚ) / r := by linarith
  have hh1 : 1 ≤ pyTrunc ((fw : ℚ) / r) := one_le_pyTrunc hq1
  have hh1' : (1 : ℚ) ≤ (pyTrunc ((fw : ℚ) / r) : ℚ) := by exact_mod_cast hh1
  have hhpos : (0 : ℚ) < (pyTrunc ((fw : ℚ) / r) : ℚ) := by linarith
  have hhle : (pyTrunc ((fw : ℚ) / r) : ℚ) ≤ (fw : ℚ) / r := pyTrunc_le hq0
  have hhlt : (fw : ℚ) / r < (pyTrunc ((fw : ℚ) / r) : ℚ) + 1 := lt_pyTrunc_add_one hq0
  have hminpos : (0 : ℚ) < min ((fw : ℚ)) ((pyTrunc ((fw : ℚ) / r) : ℚ)) :=
    lt_min hfwpos hhpos
  -- h * r ≤ fw, hence r ≤ fw / h
  have hmul : (pyTrunc ((fw : ℚ) / r) : ℚ) * r ≤ (fw : ℚ) := by
    rw [← le_div_iff hrpos]
    exact hhle
  have hd0 : 0 ≤ (fw : ℚ) / (pyTrunc ((fw : ℚ) / r) : ℚ) - r := by
    rw [sub_nonneg, le_div_iff hhpos]
    nlinarith
  rw [abs_of_nonneg hd0]
  -- fw < r * (h + 1), hence fw/h - r ≤ r/h
  have hup : (fw : ℚ) < r * ((pyTrunc ((fw : ℚ) / r) : ℚ) + 1) := by
    rw [div_lt_iff hrpos] at hhlt
    nlinarith
  have h1 : (fw : ℚ) / (pyTrunc ((fw : ℚ) / r) : ℚ) - r
      ≤ r / (pyTrunc ((fw : ℚ) / r) : ℚ) := by
    have hgoal : (fw : ℚ) / (pyTrunc ((fw : ℚ) / r) : ℚ) - r
        = ((fw : ℚ) - r * (pyTrunc ((fw : ℚ) / r) : ℚ)) / (pyTrunc ((fw : ℚ) / r) : ℚ) := by
      field_simp
      ring
    rw [hgoal, div_le_div_right hhpos]
    nlinarith
  have h2 : r / (pyTrunc ((fw : ℚ) / r) : ℚ)
      ≤ 2 / min ((fw : ℚ)) ((pyTrunc ((fw : ℚ) / r) : ℚ)) := by
    have ha : r / (pyTrunc ((fw : ℚ) / r) : ℚ) ≤ 2 / (pyTrunc ((fw : ℚ) / r) : ℚ) :=
      (div_le_div_right hhpos).mpr (by linarith)
    have hb : 2 / (pyTrunc ((fw : ℚ) / r) : ℚ)
        ≤ 2 / min ((fw : ℚ)) ((pyTrunc ((fw : ℚ) / r) : ℚ)) := by
      apply div_le_div_of_nonneg_left (by norm_num) hminpos (min_le_right _ _)
    linarith
  linarith

section Claims

/-- Claim C1: for every frame width/height > 0, every salience input and
every target-ratio label, the crop the planner returns satisfies
`x ≥ 0`, `y ≥ 0`, `x + width ≤ frameWidth`, `y + height ≤ frameHeight`;
and every rectangle the temporal smoother produces from planner-produced
crops satisfies the same bounds. -/
theorem C1_crop_rect_invariants :
    (∀ (fw fh : ℤ) (sal : FrameSalience) (label : String), 0 < fw → 0 < fh →
      cropRect_within fw fh (calculate_autoflip_crop fw fh sal label)) ∧
    (∀ (fw fh tf : ℤ) (fps : ℚ) (analyses : List FrameAnalysis), 0 < fw → 0 < fh →
      (∀ a ∈ analyses, ∃ (sal : FrameSalience) (label : String),
        a.crop_info = calculate_autoflip_crop fw fh sal label) →
      ∀ c ∈ smooth_crop_transitions analyses tf fps, smoothed_within fw fh c) := by
  constructor
  · exact fun fw fh sal label hfw hfh =>
      calculate_autoflip_crop_within fw fh sal label hfw hfh
  · intro fw fh tf fps analyses hfw hfh hin
    apply smooth_crop_transitions_within
    intro a ha
    obtain ⟨sal, label, heq⟩ := hin a ha
    rw [heq]
    exact calculate_autoflip_crop_bounded fw fh sal label hfw hfh

/-- Witness for C1 at a 1920×1080 frame: a planner crop with no salience,
and a two-sample smoother run over planner-produced crops. -/
theorem C1_crop_rect_invariants_witness :
    cropRect_within 1920 1080 (calculate_autoflip_crop 1920 1080 ⟨none, 0⟩ "9:16") ∧
    (∀ c ∈ smooth_crop_transitions
        [⟨0, 0, calculate_autoflip_crop 1920 1080 ⟨none, 0⟩ "9:16"⟩,
         ⟨10, 1/3, calculate_autoflip_crop 1920 1080
            ⟨some (2/5, 2/5, 1/5, 1/5), 9/10⟩ "9:16"⟩] 300 30,
      smoothed_within 1920 1080 c) := by
  constructor
  · exact C1_crop_rect_invariants.1 1920 1080 ⟨none, 0⟩ "9:16" (by norm_num) (by norm_num)
  · apply C1_crop_rect_invariants.2 1920 1080 300 30 _ (by norm_num) (by norm_num)
    intro a ha
    simp only [List.mem_cons, List.not_mem_nil, or_false] at ha
    rcases ha with rfl | rfl
    · exact ⟨⟨none, 0⟩, "9:16", rfl⟩
    · exact ⟨⟨some (2/5, 2/5, 1/5, 1/5), 9/10⟩, "9:16", rfl⟩

/-- Counterexample to claim C2: on the 1920×1080 frame with the single
face box `(0.4, 0.4, 0.2, 0.2)` and label `9:16`, the planner's crop
width is not 608 — the code computes `int(1080 * 0.5625) = int(607.5)`,
which truncates to 607 rather than rounding to 608. -/
theorem C2_counterexample :
    (calculate_autoflip_crop 1920 1080 ⟨some (2/5, 2/5, 1/5, 1/5), 9/10⟩ "9:16").width
      ≠ 608 := by
  have hp : parse_target_ratio "9:16" = 9 / 16 := by simp [parse_target_ratio]
  unfold calculate_autoflip_crop
  rw [hp]
  norm_num [pyTrunc]

/-- Claim C2 as amended: on a 1920×1080 frame with a single face region
whose normalized box is `(0.4, 0.4, 0.2, 0.2)` and target label `9:16`,
the planner returns exactly
`{x: 656, y: 0, width: 607, height: 1080, method: autoflip_salient}` —
the crop width is the truncation `int(1080 * 0.5625) = 607`, not the
rounding 608, and consequently
`cropX = clamp(int(960 - 303.5), 0, 1920 - 607) = 656`. -/
theorem C2_portrait_scenario (conf : ℚ) :
    calculate_autoflip_crop 1920 1080 ⟨some (2/5, 2/5, 1/5, 1/5), conf⟩ "9:16"
      = ⟨656, 0, 607, 1080, conf, "autoflip_salient"⟩ := by
  have hp : parse_target_ratio "9:16" = 9 / 16 := by simp [parse_target_ratio]
  unfold calculate_autoflip_crop
  rw [hp]
  norm_num [pyTrunc]

/-- Counterexample to claim C3: on two analyses with the same frame
index 3 whose crops differ (x = 0 versus x = 5), the smoother's single
output crop carries the second analysis's x, not the first's — the code
appends `frame_analyses[-1]`, the last analysis. -/
theorem C3_counterexample :
    ¬ ((smooth_crop_transitions
        [⟨3, 0, ⟨0, 0, 10, 10, 1, "autoflip_salient"⟩⟩,
         ⟨3, 0, ⟨5, 0, 10, 10, 1, "autoflip_salient"⟩⟩] 10 30).map SmoothedCrop.x
      = [(0 : ℤ)]) := by
  rw [smooth_cons_cons, smooth_single]
  simp [interpolate_pair, last_smoothed]

/-- Claim C3 as amended: on exactly two sampled analyses with equal frame
indices the smoother performs no division (the `frame_diff > 0` guard
holds the factor at 0 and the offset loop is empty) and returns exactly
one crop — the one of the second (last) analysis, with its original
method label, not the first's. -/
theorem C3_equal_indices (A B : FrameAnalysis) (tf : ℤ) (fps : ℚ)
    (h : A.frame_idx = B.frame_idx) :
    smooth_crop_transitions [A, B] tf fps = [last_smoothed B] := by
  rw [smooth_cons_cons, smooth_single]
  unfold interpolate_pair
  simp [h]

/-- Witness for C3: two concrete analyses both at frame 3. -/
theorem C3_equal_indices_witness :
    smooth_crop_transitions
        [⟨3, 0, ⟨0, 0, 10, 10, 1, "autoflip_salient"⟩⟩,
         ⟨3, 0, ⟨5, 0, 10, 10, 1, "center_crop_fallback"⟩⟩] 10 30
      = [last_smoothed ⟨3, 0, ⟨5, 0, 10, 10, 1, "center_crop_fallback"⟩⟩] :=
  C3_equal_indices
    ⟨3, 0, ⟨0, 0, 10, 10, 1, "autoflip_salient"⟩⟩
    ⟨3, 0, ⟨5, 0, 10, 10, 1, "center_crop_fallback"⟩⟩ 10 30 rfl

/-- Claim C5: whenever the salience carries no overall bounding box the
planner returns `method = center_crop_fallback` and `confidence = 0.1`;
in particular on a 100×100 frame with no regions and label `1:1` it
returns exactly `{x: 0, y: 0, width: 100, height: 100, confidence: 0.1,
method: center_crop_fallback}`. -/
theorem C5_center_fallback :
    (∀ (fw fh : ℤ) (conf : ℚ) (label : String),
      (calculate_autoflip_crop fw fh ⟨none, conf⟩ label).method
          = "center_crop_fallback" ∧
      (calculate_autoflip_crop fw fh ⟨none, conf⟩ label).confidence = 1 / 10) ∧
    calculate_autoflip_crop 100 100 ⟨none, 0⟩ "1:1"
      = ⟨0, 0, 100, 100, 1 / 10, "center_crop_fallback"⟩ := by
  constructor
  · intro fw fh conf label
    unfold calculate_autoflip_crop
    dsimp only
    split_ifs <;> exact ⟨rfl, rfl⟩
  · have hp : parse_target_ratio "1:1" = 1 := by simp [parse_target_ratio]
    unfold calculate_autoflip_crop
    rw [hp]
    norm_num [pyTrunc]

/-- Counterexample to claim C8: with a missing input file the process
exits with code 1 and writes no JSON, but its stderr is empty — the
error message goes to stdout (a bare `print`), not to stderr as the
claim states. -/
theorem C8_counterexample :
    (main_model ⟨false, true⟩).exit_code = 1 ∧
    (main_model ⟨false, true⟩).json_written = false ∧
    (main_model ⟨false, true⟩).stderr_msgs = [] ∧
    "Error: Input video file not found" ∈ (main_model ⟨false, true⟩).stdout_msgs := by
  refine ⟨rfl, rfl, rfl, ?_⟩
  simp [main_model]

/-- Claim C8 as amended: if the input path does not exist or the video
cannot be opened, the program exits with code 1, reports the error to
the user on stdout (nothing is ever written to stderr), and writes no
output JSON file; on success it exits with code 0 and writes the JSON. -/
theorem C8_exit_codes (w : CliWorld) :
    (w.input_exists = false ∨ w.video_opens = false →
      (main_model w).exit_code = 1 ∧ (main_model w).json_written = false ∧
      (main_model w).stderr_msgs = [] ∧
      ("Error: Input video file not found" ∈ (main_model w).stdout_msgs ∨
       "Error: Could not open video file" ∈ (main_model w).stdout_msgs)) ∧
    (w.input_exists = true → w.video_opens = true →
      (main_model w).exit_code = 0 ∧ (main_model w).json_written = true) := by
  rcases w with ⟨ex, op⟩
  unfold main_model
  rcases ex <;> rcases op <;> simp

/-- Witness for C8: a run with a missing input and a fully successful
run. -/
theorem C8_exit_codes_witness :
    ((main_model ⟨false, true⟩).exit_code = 1 ∧
     (main_model ⟨false, true⟩).json_written = false ∧
     (main_model ⟨false, true⟩).stderr_msgs = [] ∧
     ("Error: Input video file not found" ∈ (main_model ⟨false, true⟩).stdout_msgs ∨
      "Error: Could not open video file" ∈ (main_model ⟨false, true⟩).stdout_msgs)) ∧
    ((main_model ⟨true, true⟩).exit_code = 0 ∧
     (main_model ⟨true, true⟩).json_written = true) :=
  ⟨(C8_exit_codes ⟨false, true⟩).1 (Or.inl rfl),
   (C8_exit_codes ⟨true, true⟩).2 rfl rfl⟩

/-- Claim C9: any label outside `{9:16, 16:9, 1:1, 4:3}` makes the
planner compute with the 9/16 portrait ratio, so its result coincides
with the result for the label `9:16`. -/
theorem C9_default_ratio (fw fh : ℤ) (sal : FrameSalience) (label : String)
    (h : label ∉ (["9:16", "16:9", "1:1", "4:3"] : List String)) :
    calculate_autoflip_crop fw fh sal label
      = calculate_autoflip_crop fw fh sal "9:16" := by
  simp only [List.mem_cons, List.not_mem_nil, or_false, not_or] at h
  obtain ⟨h1, h2, h3, h4⟩ := h
  have hp : parse_target_ratio label = parse_target_ratio "9:16" := by
    simp [parse_target_ratio, h1, h2, h3, h4]
  unfold calculate_autoflip_crop
  rw [hp]

/-- Witness for C9: the unrecognized label `21:9`. -/
theorem C9_default_ratio_witness :
    calculate_autoflip_crop 1920 1080 ⟨none, 0⟩ "21:9"
      = calculate_autoflip_crop 1920 1080 ⟨none, 0⟩ "9:16" :=
  C9_default_ratio 1920 1080 ⟨none, 0⟩ "21:9" (by decide)

/-- Claim C10: the smoother's output never depends on the
`total_frames` argument, and (with non-decreasing sampled indices) no
output crop carries a frame index beyond the last sampled frame's
index. -/
theorem C10_total_frames_irrelevant :
    (∀ (analyses : List FrameAnalysis) (t1 t2 : ℤ) (fps : ℚ),
      smooth_crop_transitions analyses t1 fps
        = smooth_crop_transitions analyses t2 fps) ∧
    (∀ (a : FrameAnalysis) (l : List FrameAnalysis) (tf : ℤ) (fps : ℚ),
      List.Chain' (fun u v => u.frame_idx ≤ v.frame_idx) (a :: l) →
      ∀ c ∈ smooth_crop_transitions (a :: l) tf fps,
        c.frame_idx ≤ ((a :: l).getLast (List.cons_ne_nil a l)).frame_idx) :=
  ⟨fun _ _ _ _ => rfl, fun a l tf fps h => smooth_frame_idx_le l a tf fps h⟩

/-- Witness for C10: a two-sample run, once with `total_frames = 300`
and once with `total_frames = 7`. -/
theorem C10_total_frames_irrelevant_witness :
    (smooth_crop_transitions
        [⟨0, 0, ⟨0, 0, 10, 10, 1, "autoflip_salient"⟩⟩,
         ⟨4, 0, ⟨8, 0, 10, 10, 1, "autoflip_salient"⟩⟩] 300 30
      = smooth_crop_transitions
        [⟨0, 0, ⟨0, 0, 10, 10, 1, "autoflip_salient"⟩⟩,
         ⟨4, 0, ⟨8, 0, 10, 10, 1, "autoflip_salient"⟩⟩] 7 30) ∧
    (∀ c ∈ smooth_crop_transitions
        [⟨0, 0, ⟨0, 0, 10, 10, 1, "autoflip_salient"⟩⟩,
         ⟨4, 0, ⟨8, 0, 10, 10, 1, "autoflip_salient"⟩⟩] 300 30,
      c.frame_idx ≤ (([⟨0, 0, ⟨0, 0, 10, 10, 1, "autoflip_salient"⟩⟩,
         ⟨4, 0, ⟨8, 0, 10, 10, 1, "autoflip_salient"⟩⟩]
           : List FrameAnalysis).getLast (by simp)).frame_idx) := by
  constructor
  · exact C10_total_frames_irrelevant.1 _ 300 7 30
  · exact C10_total_frames_irrelevant.2 _ _ 300 30
      (List.chain'_cons.mpr ⟨by norm_num, List.chain'_singleton _⟩)

end Claims

section ClaimsTwo

/-- Claim C6: on no sampled analyses the smoother returns the empty
sequence; on exactly one it returns that single crop unchanged; and on a
non-empty list with non-decreasing frame indices its output length is
`lastSampledFrameIndex - firstSampledFrameIndex + 1`. -/
theorem C6_smoother_length :
    (∀ (tf : ℤ) (fps : ℚ), smooth_crop_transitions [] tf fps = []) ∧
    (∀ (a : FrameAnalysis) (tf : ℤ) (fps : ℚ),
      smooth_crop_transitions [a] tf fps = [last_smoothed a]) ∧
    (∀ (a : FrameAnalysis) (l : List FrameAnalysis) (tf : ℤ) (fps : ℚ),
      List.Chain' (fun u v => u.frame_idx ≤ v.frame_idx) (a :: l) →
      ((smooth_crop_transitions (a :: l) tf fps).length : ℤ)
        = ((a :: l).getLast (List.cons_ne_nil a l)).frame_idx - a.frame_idx + 1) :=
  ⟨fun _ _ => rfl, smooth_single,
   fun a l tf fps h => smooth_length_chain l a tf fps h⟩

/-- Witness for C6: samples at frames 2 and 10 give 10 − 2 + 1 = 9
smoothed crops. -/
theorem C6_smoother_length_witness :
    ((smooth_crop_transitions
        [⟨2, 0, ⟨0, 0, 10, 10, 1, "autoflip_salient"⟩⟩,
         ⟨10, 0, ⟨8, 0, 10, 10, 1, "autoflip_salient"⟩⟩] 300 30).length : ℤ) = 9 := by
  have h := C6_smoother_length.2.2
    ⟨2, 0, ⟨0, 0, 10, 10, 1, "autoflip_salient"⟩⟩
    [⟨10, 0, ⟨8, 0, 10, 10, 1, "autoflip_salient"⟩⟩] 300 30
    (List.chain'_cons.mpr ⟨by norm_num, List.chain'_singleton _⟩)
  simpa using h

/-- Claim C4 as amended: for frame width and height at least 2 (so both
crop extents are positive) and any valid target-ratio label, the
planner's crop satisfies
`|width/height − targetRatio| ≤ 2 / min(width, height)`; the code
truncates (`int(...)`) instead of rounding, which can cost up to one
pixel in the reduced dimension, so the constant is 2 rather than the
claimed 1. -/
theorem C4_aspect_ratio_bound (fw fh : ℤ) (sal : FrameSalience) (label : String)
    (hfw : 2 ≤ fw) (hfh : 2 ≤ fh)
    (hlabel : label ∈ (["9:16", "16:9", "1:1", "4:3"] : List String)) :
    |(((calculate_autoflip_crop fw fh sal label).width : ℚ)
        / ((calculate_autoflip_crop fw fh sal label).height : ℚ))
      - parse_target_ratio label|
      ≤ 2 / min (((calculate_autoflip_crop fw fh sal label).width : ℚ))
          (((calculate_autoflip_crop fw fh sal label).height : ℚ)) := by
  obtain ⟨hr1, hr2⟩ := parse_target_ratio_bounds label
  unfold calculate_autoflip_crop
  rcases sal with ⟨bb, conf⟩
  rcases bb with _ | ⟨bx, byy, bw, bh⟩ <;> dsimp only <;> split_ifs with hcr <;> dsimp only
  · exact trunc_width_ratio_bound fh (parse_target_ratio label) hfh hr1 hr2
  · exact trunc_height_ratio_bound fw (parse_target_ratio label) hfw hr1 hr2
  · exact trunc_width_ratio_bound fh (parse_target_ratio label) hfh hr1 hr2
  · exact trunc_height_ratio_bound fw (parse_target_ratio label) hfw hr1 hr2

/-- Counterexample to claim C4: on a 23×13 frame with label `16:9` (and
no salient regions) the crop is 23×12, and
`|23/12 − 16/9| = 5/36 > 1/12 = 1/min(23, 12)`, refuting the claimed
`1/min(width, height)` bound. -/
theorem C4_counterexample :
    ¬ (|(((calculate_autoflip_crop 23 13 ⟨none, 0⟩ "16:9").width : ℚ)
          / ((calculate_autoflip_crop 23 13 ⟨none, 0⟩ "16:9").height : ℚ))
        - parse_target_ratio "16:9"|
        ≤ 1 / min (((calculate_autoflip_crop 23 13 ⟨none, 0⟩ "16:9").width : ℚ))
            (((calculate_autoflip_crop 23 13 ⟨none, 0⟩ "16:9").height : ℚ))) := by
  have hp : parse_target_ratio "16:9" = 16 / 9 := by simp [parse_target_ratio]
  have hc : calculate_autoflip_crop 23 13 ⟨none, 0⟩ "16:9"
      = ⟨0, 0, 23, 12, 1 / 10, "center_crop_fallback"⟩ := by
    unfold calculate_autoflip_crop
    rw [hp]
    norm_num [pyTrunc]
    decide
  rw [hc, hp]
  have habs : |(((23 : ℤ) : ℚ)) / (((12 : ℤ) : ℚ)) - 16 / 9| = 5 / 36 := by
    rw [abs_of_nonneg (by norm_num)]
    norm_num
  push_cast
  push_cast at habs
  rw [habs]
  norm_num

/-- Witness for C4: the 1920×1080 frame with no salient regions and the
portrait label. -/
theorem C4_aspect_ratio_bound_witness :
    |(((calculate_autoflip_crop 1920 1080 ⟨none, 0⟩ "9:16").width : ℚ)
        / ((calculate_autoflip_crop 1920 1080 ⟨none, 0⟩ "9:16").height : ℚ))
      - parse_target_ratio "9:16"|
      ≤ 2 / min (((calculate_autoflip_crop 1920 1080 ⟨none, 0⟩ "9:16").width : ℚ))
          (((calculate_autoflip_crop 1920 1080 ⟨none, 0⟩ "9:16").height : ℚ)) :=
  C4_aspect_ratio_bound 1920 1080 ⟨none, 0⟩ "9:16"
    (by norm_num) (by norm_num) (by decide)

end ClaimsTwo

section ClaimSeven

/-- The first interpolated crop of a pair with strictly increasing frame
indices: the interpolation factor is 0, so every numeric field is the
first analysis's, tagged `interpolated`. -/
theorem interpolate_pair_zero (p q : FrameAnalysis) (fps : ℚ)
    (hlt : p.frame_idx < q.frame_idx) :
    (interpolate_pair p q fps)[0]?
      = some { frame_idx := p.frame_idx,
               timestamp := (p.frame_idx : ℚ) / fps,
               x := p.crop_info.x, y := p.crop_info.y,
               width := p.crop_info.width, height := p.crop_info.height,
               confidence := p.crop_info.confidence,
               method := "interpolated" } := by
  unfold interpolate_pair
  rw [List.getElem?_map, List.getElem?_range (by omega)]
  simp [pyTrunc_intCast]

/-- The element of a two-sample smoother run at the offset of the second
sample is the second sample's own crop. -/
theorem smooth_pair_last (A B : FrameAnalysis) (tf : ℤ) (fps : ℚ) (k : ℕ)
    (hk : k = (B.frame_idx - A.frame_idx).toNat) :
    (smooth_crop_transitions [A, B] tf fps)[k]? = some (last_smoothed B) := by
  rw [smooth_cons_cons, smooth_single,
    List.getElem?_append_right (by rw [interpolate_pair_length]; omega),
    interpolate_pair_length, hk]
  simp

/-- Claim C7: for analyses A at frame 0 and B at frame 10, the first
element of `smooth([A, B])` carries A's crop fields (x, y, width,
height, confidence) with `method = interpolated`, and the element at
offset 10 is B's crop exactly, with B's original method label. -/
theorem C7_interpolation_endpoints (A B : FrameAnalysis) (tf : ℤ) (fps : ℚ)
    (hA : A.frame_idx = 0) (hB : B.frame_idx = 10) :
    ((smooth_crop_transitions [A, B] tf fps)[0]?
      = some { frame_idx := A.frame_idx, timestamp := (A.frame_idx : ℚ) / fps,
               x := A.crop_info.x, y := A.crop_info.y,
               width := A.crop_info.width, height := A.crop_info.height,
               confidence := A.crop_info.confidence,
               method := "interpolated" }) ∧
    (smooth_crop_transitions [A, B] tf fps)[10]? = some (last_smoothed B) := by
  constructor
  · rw [smooth_cons_cons, smooth_single,
      List.getElem?_append_left (by rw [interpolate_pair_length]; omega)]
    exact interpolate_pair_zero A B fps (by omega)
  · exact smooth_pair_last A B tf fps 10 (by omega)

/-- Witness for C7: two concrete analyses at frames 0 and 10 with
distinct crops and method labels. -/
theorem C7_interpolation_endpoints_witness :
    ((smooth_crop_transitions
        [⟨0, 0, ⟨100, 0, 600, 1080, 1/2, "autoflip_salient"⟩⟩,
         ⟨10, 1/3, ⟨200, 0, 600, 1080, 3/4, "center_crop_fallback"⟩⟩] 300 30)[0]?
      = some ⟨0, 0, 100, 0, 600, 1080, 1/2, "interpolated"⟩) ∧
    ((smooth_crop_transitions
        [⟨0, 0, ⟨100, 0, 600, 1080, 1/2, "autoflip_salient"⟩⟩,
         ⟨10, 1/3, ⟨200, 0, 600, 1080, 3/4, "center_crop_fallback"⟩⟩] 300 30)[10]?
      = some ⟨10, 1/3, 200, 0, 600, 1080, 3/4, "center_crop_fallback"⟩) := by
  have h := C7_interpolation_endpoints
    ⟨0, 0, ⟨100, 0, 600, 1080, 1/2, "autoflip_salient"⟩⟩
    ⟨10, 1/3, ⟨200, 0, 600, 1080, 3/4, "center_crop_fallback"⟩⟩ 300 30 rfl rfl
  constructor
  · simpa using h.1
  · simpa [last_smoothed] using h.2

end ClaimSeven
